import Mathlib

/-!
Shallow embedding of the sticky-session load-balancing core of the serving
activator: the session key resolver of the context handler, the load-balancing
policies (`firstAvailableLBPolicy`, `newRoundRobinPolicy`,
`randomChoice2Policy`) with the affinity-store session helpers
(`getSession` / `setSession` from store.go), and the sticky-revision
compare-and-swap retry loop of `contextHandler.ServeHTTP`.

External effects are made explicit: values read from the affinity store are
inputs (so that concurrent interference between two reads is expressible), and
writes performed by the code are recorded in an operation trace.  The
`podTracker` type is referenced but not defined in the sources, so it is
modelled from the spec (section 4.1).
-/

namespace ServingLB

/-- Go `strings.Split(s, "/")` at the character level: splits at every
separator character; the empty input yields a single empty field. -/
def goSplitChars : List Char → List (List Char)
  | [] => [[]]
  | c :: rest =>
    if c = '/' then [] :: goSplitChars rest
    else
      match goSplitChars rest with
      | [] => [[c]]
      | s :: ss => (c :: s) :: ss

/-- Go `strings.TrimPrefix(s, "/")`: drops one leading separator. -/
def trimSlash : List Char → List Char
  | '/' :: rest => rest
  | l => l

/-- Slash-delimited segments of a request path after stripping one leading
slash: Go `strings.Split(strings.TrimPrefix(path, "/"), "/")`. -/
def segs (p : String) : List String :=
  (goSplitChars (trimSlash p.toList)).map List.asString

/-- Splits a character list at its first `/`, when one is present.  Mirrors
the case in which Go `strings.SplitN(v, sep, 2)` yields two fields. -/
def splitFirst : List Char → Option (List Char × List Char)
  | [] => none
  | c :: rest =>
    if c = '/' then some ([], rest)
    else (splitFirst rest).map (fun ab => (c :: ab.1, ab.2))

/-- Go `strings.SplitN(v, string(types.Separator), 2)` followed by the
accesses `parts[0]` and `parts[1]` in `contextHandler.ServeHTTP`.  `none`
means the resulting slice has a single element, in which case the source's
`parts[1]` is an index-out-of-range access (a runtime panic in Go). -/
def parsePair (v : String) : Option (String × String) :=
  (splitFirst v.toList).map (fun ab => (ab.1.asString, ab.2.asString))

/-- Environment of one run of the sticky-revision retry loop: `pre i` is the
value stored under the key `"rev/" + session` immediately before the
compare-and-swap of iteration `i` (`none` = key unset; concurrent writers may
change it between iterations), and `resolves i ns nm` says whether the
revision lister lookup for the parsed pair `(ns, nm)` succeeds at
iteration `i`. -/
structure LoopEnv where
  pre : Nat → Option String
  resolves : Nat → String → String → Bool

/-- The compare-and-swap used by the handler, as observed through its returned
value: when the stored value equals the expected one — or the key is unset and
the expected value is the empty sentinel — the key is set to `desired` and the
call reports `desired`; otherwise it reports the actual current value (empty
for an unset key). -/
def casValue (cur : Option String) (expected desired : String) : String :=
  if cur = some expected ∨ (cur = none ∧ expected = "") then desired
  else cur.getD ""

/-- How one attempt of the sticky-revision loop ends: the original revision
stays authoritative, a resolvable sticky revision overrides it, or the parse
of the observed value accesses `parts[1]` out of range. -/
inductive LoopExit where
  | original
  | sticky (ns nm : String)
  | panicked
  deriving DecidableEq, Repr

/-- One iteration of the retry loop in `contextHandler.ServeHTTP`:
`Sum.inr v` means the loop continues with `v`, the freshly observed value, as
the new expected value. -/
def loopStep (env : LoopEnv) (rid : String) (i : Nat) (expected : String) :
    LoopExit ⊕ String :=
  let v := casValue (env.pre i) expected rid
  if v = rid then Sum.inl .original
  else
    match parsePair v with
    | none => Sum.inl .panicked
    | some (ns, nm) =>
      if env.resolves i ns nm then Sum.inl (.sticky ns nm) else Sum.inr v

/-- Runs the retry loop from iteration `i` with the given expected value,
observing at most `fuel` iterations; `none` means the loop was still running
after `fuel` iterations. -/
def runFrom (env : LoopEnv) (rid : String) : Nat → Nat → String → Option LoopExit
  | 0, _, _ => none
  | fuel + 1, i, expected =>
    match loopStep env rid i expected with
    | Sum.inl e => some e
    | Sum.inr v => runFrom env rid fuel (i + 1) v

/-- The whole loop: iteration 0 starts with the empty expected value. -/
def loopRun (env : LoopEnv) (rid : String) (fuel : Nat) : Option LoopExit :=
  runFrom env rid fuel 0 ""

/-- The loop exits after finitely many iterations. -/
def loopTerminates (env : LoopEnv) (rid : String) : Prop :=
  ∃ fuel, (loopRun env rid fuel).isSome

/-- Claim-side property, following C1's words: some fixed maximum retry count
bounds the loop for every store behaviour. -/
def boundedRetries (rid : String) : Prop :=
  ∃ bound : Nat, ∀ env : LoopEnv, (loopRun env rid bound).isSome

/-- Adversarial store history: the stored value alternates between two
well-formed pairs, so every compare-and-swap observes a value differing from
its expected one, and no observed sticky value ever resolves. -/
def advVal (i : Nat) : String := if i % 2 = 0 then "a/x" else "a/y"

/-- The adversarial environment built from `advVal`. -/
def advEnv : LoopEnv := ⟨fun i => some (advVal i), fun _ _ _ => false⟩

/-- Progress of one `setSession` execution (store.go): it performs a
`store.Get`, then either aborts (observed value non-empty and different from
its pick) or performs the `store.Set`. -/
inductive Phase where
  | start
  | observed (v : String)
  | done (ok : Bool)
  deriving DecidableEq, Repr

/-- One step of `setSession` for destination `pick` against the current store
value (empty string = key unbound), returning the new store value and the new
phase. -/
def setSessionStep (pick store : String) : Phase → String × Phase
  | .start => (store, .observed store)
  | .observed v =>
    if v ≠ "" ∧ v ≠ pick then (store, .done false) else (pick, .done true)
  | .done ok => (store, .done ok)

/-- Shared state of two racing `setSession` establishments. -/
structure RaceState where
  store : String
  pa : Phase
  pb : Phase
  deriving DecidableEq, Repr

/-- Runs two concurrent `setSession` establishments under a schedule: `true`
steps the request picking `pickA`, `false` the one picking `pickB`. -/
def raceRun (pickA pickB : String) : List Bool → RaceState → RaceState
  | [], s => s
  | b :: rest, s =>
    if b then
      let r := setSessionStep pickA s.store s.pa
      raceRun pickA pickB rest ⟨r.1, r.2, s.pb⟩
    else
      let r := setSessionStep pickB s.store s.pb
      raceRun pickA pickB rest ⟨r.1, s.pa, r.2⟩

/-- Initial race state: brand-new session key, both requests about to Get. -/
def raceInit : RaceState := ⟨"", .start, .start⟩

/-- Modelled from the spec: `podTracker` is referenced but not defined in the
given sources; its fields follow sections 3 and 4.1 — an opaque destination
address, the outstanding-request count, the concurrency cap bounding it, and
the signed weight estimate. -/
structure podTracker where
  dest : String
  inflight : Nat
  cap : Nat
  weight : Int
  deriving DecidableEq, Repr

/-- Default tracker used only as the `getD` fallback; every in-range access
is proved in range where it matters. -/
def dT : podTracker := ⟨"", 0, 0, 0⟩

/-- Modelled from the spec: `Reserve` succeeds exactly when the outstanding
count is below the concurrency cap (section 4.1). -/
def hasCap (t : podTracker) : Bool := decide (t.inflight < t.cap)

/-- Externally visible operations a policy call performs, in order: affinity
store reads/writes and tracker reservation/weight updates. -/
inductive Eff where
  | get (k v : String)
  | set (k v : String)
  | del (k v : String)
  | reserve (d : String)
  | release (d : String)
  | incw (d : String)
  deriving DecidableEq, Repr

/-- The release callback a policy returns to its caller: the no-op, the
capacity release of a reserved tracker, or the weight decrement of the
power-of-two-choices pick. -/
inductive ReleaseFn where
  | noop
  | relCap (i : Nat)
  | decWt (i : Nat)
  deriving DecidableEq, Repr

/-- Result of one policy call: the release callback, the chosen tracker (as an
index into the target set, `none` = "no target"), the target set after the
call's tracker mutations, and the operation trace. -/
structure PolicyOut where
  rel : ReleaseFn
  chosen : Option Nat
  targets : List podTracker
  ops : List Eff
  deriving DecidableEq, Repr

/-- Prefixes earlier operations onto a policy result's trace. -/
def prependOps (pre : List Eff) (p : PolicyOut) : PolicyOut :=
  { p with ops := pre ++ p.ops }

/-- `getSession` (store.go), result part: the first tracker whose destination
equals the bound value `dest` read from the store, when a session key is
present and a non-empty binding was observed. -/
def sessionHit (session dest : String) (ts : List podTracker) : Option Nat :=
  if session ≠ "" ∧ dest ≠ "" then ts.findIdx? (fun t => dest == t.dest) else none

/-- `getSession` (store.go), store-operation part: one `Get`, plus the
delete-if-equals of the observed value whenever no tracker matched. -/
def getSessionOps (session dest : String) (ts : List podTracker) : List Eff :=
  if session = "" then []
  else
    match sessionHit session dest ts with
    | some _ => [.get session dest]
    | none => [.get session dest, .del session dest]

/-- `setSession` (store.go), result part: with a session key present it fails
exactly when the value `g2` read at establishment time is non-empty and
differs from the picked destination. -/
def setSessionOk (session g2 pickDest : String) : Bool :=
  if session ≠ "" then
    if g2 ≠ "" ∧ g2 ≠ pickDest then false else true
  else true

/-- `setSession` (store.go), store-operation part. -/
def setSessionOps (session g2 pickDest : String) : List Eff :=
  if session = "" then []
  else if g2 ≠ "" ∧ g2 ≠ pickDest then [.get session g2]
  else [.get session g2, .set session pickDest]

/-- Index of the first target whose `Reserve` succeeds, as scanned by
`firstAvailableLBPolicy` (a failed `Reserve` has no effect). -/
def faFirstCap (ts : List podTracker) : Option Nat := ts.findIdx? hasCap

/-- Effect of a successful `Reserve` on the target set: one more outstanding
request on tracker `j`. -/
def reserveAt (ts : List podTracker) (j : Nat) : List podTracker :=
  ts.set j (let t := ts.getD j dT; { t with inflight := t.inflight + 1 })

/-- Effect of `increaseWeight` on tracker `j`. -/
def incwAt (ts : List podTracker) (j : Nat) : List podTracker :=
  ts.set j (let t := ts.getD j dT; { t with weight := t.weight + 1 })

/-- Body of `firstAvailableLBPolicy` after the session shortcut: reserve the
first target with capacity, then try to establish the session binding; on a
lost establishment race the reservation is released again. -/
def faCore (session g2 : String) (ts : List podTracker) : PolicyOut :=
  match faFirstCap ts with
  | none => ⟨.noop, none, ts, []⟩
  | some j =>
    let d := (ts.getD j dT).dest
    if setSessionOk session g2 d then
      ⟨.relCap j, some j, reserveAt ts j, .reserve d :: setSessionOps session g2 d⟩
    else
      ⟨.noop, none, ts, .reserve d :: (setSessionOps session g2 d ++ [.release d])⟩

/-- `firstAvailableLBPolicy` (store.go).  `g1` is the value the session lookup
reads from the store, `g2` the value the establishment read observes. -/
def firstAvailableLBPolicy (session g1 g2 : String) (ts : List podTracker) : PolicyOut :=
  match sessionHit session g1 ts with
  | some i => ⟨.noop, some i, ts, getSessionOps session g1 ts⟩
  | none => prependOps (getSessionOps session g1 ts) (faCore session g2 ts)

/-- The cursor reset of the round-robin policy: "the number of trackers might
have shrunk, so reset to 0". -/
def wrapIdx (idx l : Nat) : Nat := if l ≤ idx then 0 else idx

/-- The round-robin scan: the first position, in cyclic order starting at the
wrapped cursor, whose tracker has capacity. -/
def rrFind (ts : List podTracker) (idx0 : Nat) : Option Nat :=
  ((List.range ts.length).find?
      (fun i => hasCap (ts.getD ((idx0 + i) % ts.length) dT))).map
    (fun i => (idx0 + i) % ts.length)

/-- Body of the round-robin closure after the session shortcut, returning the
new cursor as well. -/
def rrCore (session g2 : String) (idx0 : Nat) (ts : List podTracker) :
    Nat × PolicyOut :=
  match rrFind ts idx0 with
  | none => (idx0, ⟨.noop, none, ts, []⟩)
  | some p =>
    let d := (ts.getD p dT).dest
    if setSessionOk session g2 d then
      (p + 1, ⟨.relCap p, some p, reserveAt ts p, .reserve d :: setSessionOps session g2 d⟩)
    else
      (idx0, ⟨.noop, none, ts, .reserve d :: (setSessionOps session g2 d ++ [.release d])⟩)

/-- One call of the policy closure built by `newRoundRobinPolicy` (store.go),
with the captured cursor `idx` made an explicit argument. -/
def newRoundRobinPolicy (session g1 g2 : String) (idx : Nat) (ts : List podTracker) :
    Nat × PolicyOut :=
  match sessionHit session g1 ts with
  | some i => (idx, ⟨.noop, some i, ts, getSessionOps session g1 ts⟩)
  | none =>
    let r := rrCore session g2 (wrapIdx idx ts.length) ts
    (r.1, prependOps (getSessionOps session g1 ts) r.2)

/-- The two indices drawn by `randomChoice2Policy` for a target set of size
`l`: the raw draws `r1 ∈ [0, l)` and `r2p ∈ [0, l-1)` with the second shifted
past the first, or the fixed pair `(0, 1)` when `l ≤ 2`. -/
def choice2Idx (l r1 r2p : Nat) : Nat × Nat :=
  if 2 < l then (r1, if r1 ≤ r2p then r2p + 1 else r2p) else (0, 1)

/-- The pick phase of `randomChoice2Policy`: the sole tracker for a singleton
set, otherwise the lower-weight tracker of the drawn pair with ties favouring
the first draw.  `none` means an index was out of range, where the Go source
would panic. -/
def p2cPick (r1 r2p : Nat) (ts : List podTracker) : Option (Nat × podTracker) :=
  if ts.length = 1 then ts[0]?.map (fun t => (0, t))
  else
    let pr := choice2Idx ts.length r1 r2p
    match ts[pr.1]?, ts[pr.2]? with
    | some t1, some t2 =>
      some (if t2.weight < t1.weight then (pr.2, t2) else (pr.1, t1))
    | _, _ => none

/-- Body of `randomChoice2Policy` after the session shortcut: establish the
binding for the pick, and on success optimistically increase its weight. -/
def p2cCore (session g2 : String) (r1 r2p : Nat) (ts : List podTracker) :
    Option PolicyOut :=
  (p2cPick r1 r2p ts).map (fun pt =>
    if setSessionOk session g2 pt.2.dest then
      ⟨.decWt pt.1, some pt.1, incwAt ts pt.1,
        setSessionOps session g2 pt.2.dest ++ [.incw pt.2.dest]⟩
    else ⟨.noop, none, ts, setSessionOps session g2 pt.2.dest⟩)

/-- `randomChoice2Policy` (store.go), with the two random draws passed in as
arguments. -/
def randomChoice2Policy (session g1 g2 : String) (r1 r2p : Nat)
    (ts : List podTracker) : Option PolicyOut :=
  match sessionHit session g1 ts with
  | some i => some ⟨.noop, some i, ts, getSessionOps session g1 ts⟩
  | none => (p2cCore session g2 r1 r2p ts).map (prependOps (getSessionOps session g1 ts))

/-- An HTTP request as the handler's `getSession` observes it: `header` is
`r.Header.Get` (first value, empty when absent), `query` is
`r.URL.Query().Get`, `path` is `r.URL.Path`. -/
structure Request where
  header : String → String
  query : String → String
  path : String

/-- The explicit sticky-session header name. -/
def kSessionH : String := "K-Session"

/-- The revision-identity sticky header name. -/
def kRevisionH : String := "K-Revision"

/-- Service annotation keys read by the handler's `getSession`. -/
def aDeact : String := "activator.knative.dev/deactivate"

/-- Annotation key: custom session header name. -/
def aSH : String := "activator.knative.dev/sticky-session-header-name"

/-- Annotation key: session query parameter. -/
def aSQ : String := "activator.knative.dev/sticky-session-query-parameter"

/-- Annotation key: session path segment index. -/
def aSP : String := "activator.knative.dev/sticky-session-path-segment"

/-- Annotation key: revision header name. -/
def aRH : String := "activator.knative.dev/sticky-revision-header-name"

/-- Annotation key: revision query parameter. -/
def aRQ : String := "activator.knative.dev/sticky-revision-query-parameter"

/-- Annotation key: revision path segment index. -/
def aRP : String := "activator.knative.dev/sticky-revision-path-segment"

/-- `addStickySessionHeader`: records `v` back onto the request as the
canonical sticky header when non-empty, and returns it. -/
def addSticky (v : String) (recs : List (String × String)) :
    String × List (String × String) :=
  (v, recs ++ if v ≠ "" then [(kSessionH, v)] else [])

/-- The handler's `getSession` (the session key resolver): returns the
resolved key together with the headers added onto the request.  Path-segment
indices are modelled as naturals, matching the configuration surface's
non-negative-integer contract (negative indices, which `strconv.Atoi` would
accept and which would make the source index a slice negatively, are outside
the model).  `getSessionHRev` is the part of the handler resolver from the
revision-annotation rules on: every fall-through of the session rules lands
here. -/
def getSessionHRev (r : Request) (ann : String → String)
    (rec0 : List (String × String)) : String × List (String × String) :=
  if ann aRH ≠ "" then (r.header (ann aRH), rec0)
  else if ann aRQ ≠ "" then (r.query (ann aRQ), rec0)
  else
    let afterRevPath := (r.header kRevisionH, rec0)
    if ann aRP ≠ "" then
      match (ann aRP).toNat? with
      | some n =>
        match (segs r.path)[n]? with
        | some v => (v, rec0)
        | none => afterRevPath
      | none => afterRevPath
    else afterRevPath

/-- The handler's `getSession` proper: the rules up to the session path
segment; the remaining returns are `getSessionHRev`. -/
def getSessionH (r : Request) (ann : String → String) :
    String × List (String × String) :=
  let rec0 := if ann aDeact ≠ "" then [("K-Deactivate", ann aDeact)] else []
  if r.header kSessionH ≠ "" then (r.header kSessionH, rec0)
  else if ann aSH ≠ "" then addSticky (r.header (ann aSH)) rec0
  else if ann aSQ ≠ "" then addSticky (r.query (ann aSQ)) rec0
  else if ann aSP ≠ "" then
    match (ann aSP).toNat? with
    | some n =>
      match (segs r.path)[n]? with
      | some v => addSticky v rec0
      | none => getSessionHRev r ann rec0
    | none => getSessionHRev r ann rec0
  else getSessionHRev r ann rec0

/-- A configured path-segment rule: the indexed segment when the index parses
and is in range, otherwise no match. -/
def pathRuleS (cfg : String) (p : String) : Option String :=
  match cfg.toNat? with
  | some n => (segs p)[n]?
  | none => none

/-- Spec-side rule list for the amended C8, in resolution order; `some` is a
terminal result (a configured rule is terminal even when its value is empty;
only an unparsable or out-of-range path index falls through). -/
def stickyRules (r : Request) (ann : String → String) : List (Option String) :=
  [if r.header kSessionH ≠ "" then some (r.header kSessionH) else none,
   if ann aSH ≠ "" then some (r.header (ann aSH)) else none,
   if ann aSQ ≠ "" then some (r.query (ann aSQ)) else none,
   if ann aSP ≠ "" then pathRuleS (ann aSP) r.path else none,
   if ann aRH ≠ "" then some (r.header (ann aRH)) else none,
   if ann aRQ ≠ "" then some (r.query (ann aRQ)) else none,
   if ann aRP ≠ "" then pathRuleS (ann aRP) r.path else none,
   some (r.header kRevisionH)]

/-- Spec-side resolver for the amended C8: the first applicable rule wins. -/
def specResolve (r : Request) (ann : String → String) : String :=
  ((stickyRules r ann).findSome? id).getD ""

/-- Claim-side resolver, following C8's words as frozen: first *match* wins, a
configured rule whose value is empty yields no match and falls through, and
the order is sticky-session header, configured header, configured query
parameter, configured path segment, revision-identity sticky header (empty
when no rule matches). -/
def claimResolve (r : Request) (ann : String → String) : String :=
  if r.header kSessionH ≠ "" then r.header kSessionH
  else if ann aSH ≠ "" ∧ r.header (ann aSH) ≠ "" then r.header (ann aSH)
  else if ann aSQ ≠ "" ∧ r.query (ann aSQ) ≠ "" then r.query (ann aSQ)
  else if ann aSP ≠ "" ∧ (pathRuleS (ann aSP) r.path).getD "" ≠ "" then
    (pathRuleS (ann aSP) r.path).getD ""
  else r.header kRevisionH

/-- The request of the C8 counterexample: no `K-Session`, no `K-Revision`, the
configured custom header absent, the configured query parameter set. -/
def c8Req : Request :=
  ⟨fun _ => "", fun q => if q = "qp" then "v" else "", "/"⟩

/-- The annotation map of the C8 counterexample: a session header name and a
session query parameter are both configured. -/
def c8Ann : String → String :=
  fun k => if k = aSH then "X-S" else if k = aSQ then "qp" else ""

/-- `n` consecutive calls of the round-robin policy with no session key,
threading cursor and target set; returns the per-call picks and the final
cursor and target set. -/
def rrRun : Nat → Nat → List podTracker → List (Option Nat) × Nat × List podTracker
  | 0, idx, ts => ([], idx, ts)
  | n + 1, idx, ts =>
    let r := newRoundRobinPolicy "" "" "" idx ts
    let rest := rrRun n r.1 r.2.targets
    (r.2.chosen :: rest.1, rest.2)

/-! Helper lemmas. -/

theorem getD_set_ne (ts : List podTracker) (p i : Nat) (x : podTracker) (h : p ≠ i) :
    (ts.set p x).getD i dT = ts.getD i dT := by
  simp [List.getD_eq_getElem?_getD, List.getElem?_set_ne h]

theorem getD_set_self (ts : List podTracker) (p : Nat) (x : podTracker)
    (h : p < ts.length) :
    (ts.set p x).getD p dT = x := by
  simp [List.getD_eq_getElem?_getD, List.getElem?_set_eq_of_lt x h]

theorem wrapIdx_mod (v l : Nat) (hv : v ≤ l) : wrapIdx v l = v % l := by
  unfold wrapIdx
  rcases eq_or_lt_of_le hv with h | h
  · rw [if_pos (le_of_eq h.symm), h, Nat.mod_self]
  · rw [if_neg (not_le.mpr h), Nat.mod_eq_of_lt h]

theorem rrFind_head (ts : List podTracker) (i0 : Nat) (h0 : 0 < ts.length)
    (hi : i0 < ts.length) (hcap : hasCap (ts.getD i0 dT) = true) :
    rrFind ts i0 = some i0 := by
  unfold rrFind
  obtain ⟨m, hm⟩ : ∃ m, ts.length = m + 1 := ⟨ts.length - 1, by omega⟩
  rw [hm, List.range_succ_eq_map, List.find?]
  have hmod : (i0 + 0) % (m + 1) = i0 := by
    rw [Nat.add_zero, Nat.mod_eq_of_lt (hm ▸ hi)]
  rw [hmod, hcap]
  simp
  omega

theorem rr_step (ts : List podTracker) (v : Nat) (h0 : 0 < ts.length)
    (hv : v ≤ ts.length)
    (hcap : hasCap (ts.getD (v % ts.length) dT) = true) :
    newRoundRobinPolicy "" "" "" v ts
      = (v % ts.length + 1,
         ⟨.relCap (v % ts.length), some (v % ts.length),
          reserveAt ts (v % ts.length),
          [.reserve ((ts.getD (v % ts.length) dT)).dest]⟩) := by
  have hidx : wrapIdx v ts.length = v % ts.length := wrapIdx_mod v ts.length hv
  have hfind : rrFind ts (v % ts.length) = some (v % ts.length) :=
    rrFind_head ts (v % ts.length) h0 (Nat.mod_lt v h0) hcap
  simp [newRoundRobinPolicy, sessionHit, getSessionOps, rrCore, hidx, hfind,
    setSessionOk, setSessionOps, prependOps]

theorem rot_aux : ∀ (m v : Nat) (ts : List podTracker),
    0 < ts.length → v ≤ ts.length →
    (∀ i, i < ts.length → (ts.getD i dT).inflight + m ≤ (ts.getD i dT).cap) →
    (rrRun m v ts).1
      = (List.range m).map (fun k => some ((v + k) % ts.length)) := by
  intro m
  induction m with
  | zero => intro v ts _ _ _; rfl
  | succ n ih =>
    intro v ts h0 hv hcap
    have hplt : v % ts.length < ts.length := Nat.mod_lt v h0
    have hlt : (ts.getD (v % ts.length) dT).inflight
        < (ts.getD (v % ts.length) dT).cap := by
      have := hcap (v % ts.length) hplt
      omega
    have hstep := rr_step ts v h0 hv (by simpa [hasCap] using hlt)
    have hlen : (reserveAt ts (v % ts.length)).length = ts.length := by
      simp [reserveAt]
    have hcap' : ∀ i, i < (reserveAt ts (v % ts.length)).length →
        ((reserveAt ts (v % ts.length)).getD i dT).inflight + n
          ≤ ((reserveAt ts (v % ts.length)).getD i dT).cap := by
      intro i hi
      rw [hlen] at hi
      by_cases hip : v % ts.length = i
      · subst hip
        rw [reserveAt, getD_set_self ts _ _ hplt]
        have := hcap (v % ts.length) hplt
        simp only []
        omega
      · rw [reserveAt, getD_set_ne ts _ _ _ hip]
        have := hcap i hi
        omega
    have ih' := ih (v % ts.length + 1) (reserveAt ts (v % ts.length))
      (by rw [hlen]; exact h0) (by rw [hlen]; exact Nat.succ_le_of_lt hplt) hcap'
    rw [rrRun, hstep]
    simp only []
    rw [ih', hlen]
    rw [List.range_succ_eq_map, List.map_cons, List.map_map]
    have hmapeq : ∀ a ∈ List.range n,
        (fun k => some ((v % ts.length + 1 + k) % ts.length)) a
          = ((fun k => some ((v + k) % ts.length)) ∘ Nat.succ) a := by
      intro a _
      simp only [Function.comp_apply]
      have h2 : v % ts.length + 1 + a = v % ts.length + (1 + a) := by omega
      rw [h2, Nat.mod_add_mod]
      have h3 : v + (1 + a) = v + Nat.succ a := by omega
      rw [h3]
    rw [List.map_congr_left hmapeq]
    simp

theorem rrFind_none_of_noCap (ts : List podTracker) (i0 : Nat)
    (h : ∀ p, p < ts.length → hasCap (ts.getD p dT) = false) :
    rrFind ts i0 = none := by
  unfold rrFind
  rw [List.find?_eq_none.mpr]
  · rfl
  · intro i hi
    rw [List.mem_range] at hi
    have hlt : (i0 + i) % ts.length < ts.length := Nat.mod_lt _ (by omega)
    have hh := h _ hlt
    simpa [List.getD_eq_getElem?_getD] using hh

theorem advVal_alternates (i : Nat) : advVal i ≠ advVal (i + 1) := by
  rcases Nat.mod_two_eq_zero_or_one i with h2 | h2
  · have h1 : (i + 1) % 2 = 1 := by omega
    simp only [advVal, h2, h1]
    decide
  · have h1 : (i + 1) % 2 = 0 := by omega
    simp only [advVal, h2, h1]
    decide

theorem loopStep_adv (i : Nat) (e : String) (h : e ≠ advVal i) :
    loopStep advEnv "ns/rev" i e = Sum.inr (advVal i) := by
  have hv : casValue (advEnv.pre i) e "ns/rev" = advVal i := by
    show casValue (some (advVal i)) e "ns/rev" = advVal i
    unfold casValue
    rw [if_neg]
    · rfl
    · rintro (hh | ⟨hh, _⟩)
      · exact h (Option.some.inj hh).symm
      · exact Option.noConfusion hh
  simp only [loopStep, hv]
  rcases Nat.mod_two_eq_zero_or_one i with h2 | h2 <;> simp only [advVal, h2] <;> rfl

theorem adv_runFrom_none : ∀ (fuel i : Nat) (e : String), e ≠ advVal i →
    runFrom advEnv "ns/rev" fuel i e = none := by
  intro fuel
  induction fuel with
  | zero => intro i e _; rfl
  | succ n ih =>
    intro i e h
    rw [runFrom, loopStep_adv i e h]
    exact ih (i + 1) (advVal i) (advVal_alternates i)

theorem C8_tail (r : Request) (ann : String → String)
    (rec0 : List (String × String)) :
    (getSessionHRev r ann rec0).1 =
      (([if ann aRH ≠ "" then some (r.header (ann aRH)) else none,
         if ann aRQ ≠ "" then some (r.query (ann aRQ)) else none,
         if ann aRP ≠ "" then pathRuleS (ann aRP) r.path else none,
         some (r.header kRevisionH)] : List (Option String)).findSome? id).getD "" := by
  by_cases c4 : ann aRH = ""
  · by_cases c5 : ann aRQ = ""
    · by_cases c6 : ann aRP = ""
      · simp [getSessionHRev, pathRuleS, List.findSome?, c4, c5, c6]
      · cases hn : (ann aRP).toNat? with
        | none => simp [getSessionHRev, pathRuleS, List.findSome?, c4, c5, c6, hn]
        | some n =>
          cases hv : (segs r.path)[n]? with
          | none => simp [getSessionHRev, pathRuleS, List.findSome?, c4, c5, c6, hn, hv]
          | some v => simp [getSessionHRev, pathRuleS, List.findSome?, c4, c5, c6, hn, hv]
    · simp [getSessionHRev, pathRuleS, List.findSome?, c4, c5]
  · simp [getSessionHRev, pathRuleS, List.findSome?, c4]

/-! Claim theorems. -/

/-- Claim C1, counterexample: the sticky-revision compare-and-swap loop of
`contextHandler.ServeHTTP` has no retry bound at all.  Under a store whose
value keeps changing between iterations while no observed sticky value
resolves, the loop never exits, so no fixed maximum retry count can bound it
and no failure is ever surfaced. -/
theorem C1_cas_loop_unbounded_counterexample :
    ¬ loopTerminates advEnv "ns/rev" ∧ ¬ boundedRetries "ns/rev" := by
  have hnone : ∀ fuel, loopRun advEnv "ns/rev" fuel = none := fun fuel =>
    adv_runFrom_none fuel 0 "" (by decide)
  constructor
  · rintro ⟨fuel, h⟩
    rw [hnone fuel] at h
    simp at h
  · rintro ⟨bound, hb⟩
    have h := hb advEnv
    rw [hnone bound] at h
    simp at h

/-- Claim C1, amended: the loop is not bounded by a retry count and surfaces
no failure; it exits exactly on a successful compare-and-swap or a resolvable
sticky value.  Whenever the stored value is unchanged across the first two
iterations (no interfering write) and parseable, the retry's compare-and-swap
succeeds, so the loop terminates within two iterations without panicking. -/
theorem C1_cas_loop_quiescent_terminates (env : LoopEnv) (rid w : String)
    (h0 : env.pre 0 = some w) (h1 : env.pre 1 = some w)
    (hw : w ≠ rid) (hp : parsePair w ≠ none) :
    ∃ e, loopRun env rid 2 = some e ∧ e ≠ LoopExit.panicked := by
  obtain ⟨⟨ns, nm⟩, hpp⟩ : ∃ pr, parsePair w = some pr := by
    cases hq : parsePair w
    · exact absurd hq hp
    · exact ⟨_, rfl⟩
  have hwne : w ≠ "" := by
    intro hww
    rw [hww] at hpp
    simp [parsePair, splitFirst] at hpp
  have hv0 : casValue (env.pre 0) "" rid = w := by
    rw [h0]
    unfold casValue
    rw [if_neg]
    · rfl
    · rintro (hh | ⟨hh, _⟩)
      · exact hwne (Option.some.inj hh)
      · exact Option.noConfusion hh
  have hv1 : casValue (env.pre 1) w rid = rid := by
    rw [h1]
    unfold casValue
    rw [if_pos (Or.inl rfl)]
  have hstep1 : loopStep env rid 1 w = Sum.inl .original := by
    simp [loopStep, hv1]
  have run2 : runFrom env rid 2 0 "" =
      (match loopStep env rid 0 "" with
       | Sum.inl e => some e
       | Sum.inr v =>
         match loopStep env rid 1 v with
         | Sum.inl e => some e
         | Sum.inr _ => none) := rfl
  cases hres : env.resolves 0 ns nm with
  | false =>
    have hstep0 : loopStep env rid 0 "" = Sum.inr w := by
      simp only [loopStep, hv0, if_neg hw, hpp, hres, Bool.false_eq_true, if_false]
    refine ⟨.original, ?_, fun hh => LoopExit.noConfusion hh⟩
    show runFrom env rid 2 0 "" = some .original
    rw [run2, hstep0]
    simp only [hstep1]
  | true =>
    have hstep0 : loopStep env rid 0 "" = Sum.inl (.sticky ns nm) := by
      simp only [loopStep, hv0, if_neg hw, hpp, hres, if_true]
    refine ⟨.sticky ns nm, ?_, fun hh => LoopExit.noConfusion hh⟩
    show runFrom env rid 2 0 "" = some (.sticky ns nm)
    rw [run2, hstep0]

/-- Witness for the amended C1 at a concrete quiescent environment. -/
theorem C1_cas_loop_quiescent_terminates_witness :
    ∃ e, loopRun ⟨fun _ => some "a/b", fun _ _ _ => false⟩ "n/r" 2 = some e ∧
      e ≠ LoopExit.panicked :=
  C1_cas_loop_quiescent_terminates ⟨fun _ => some "a/b", fun _ _ _ => false⟩
    "n/r" "a/b" rfl rfl (by decide) (by decide)

/-- Claim C2: evaluating the loop at the failing input.  With the sticky key
holding the separator-free value "garbage", the first failed compare-and-swap
observes it and the parse accesses `parts[1]` of a one-element slice: the
handler panics (index out of range) instead of treating the value as
"stickiness unavailable" and proceeding with the original revision. -/
theorem C2_malformed_sticky_value_panics :
    loopRun ⟨fun _ => some "garbage", fun _ _ _ => false⟩ "ns/rev" 1
      = some LoopExit.panicked ∧ parsePair "garbage" = none := by decide

/-- Claim C3, counterexample: `setSession` establishes the binding with a
non-atomic Get-then-Set, not a compare-and-swap.  Under the interleaving
A.Get, B.Get, A.Set, B.Set of two first-requests with distinct picks over a
brand-new key, both establishments succeed — two writers — so the two requests
select different backends and the claimed single-winner convergence fails. -/
theorem C3_concurrent_establishment_counterexample :
    raceRun "d1" "d2" [true, false, true, false] raceInit
      = ⟨"d2", .done true, .done true⟩ ∧ "d1" ≠ "d2" := by decide

/-- Claim C3, amended: when the two establishments do not interleave (the
first request's Get and Set both precede the other's), exactly one writer
succeeds: the serialized loser observes the winner's value and aborts, and its
retry's session lookup (`getSession`) selects the winner's tracker. -/
theorem C3_serialized_establishment_converges
    (pickA pickB session g2 : String) (ts : List podTracker) (i : Nat)
    (hA : pickA ≠ "") (hAB : pickB ≠ pickA) (hs : session ≠ "")
    (hfind : ts.findIdx? (fun t => pickA == t.dest) = some i) :
    raceRun pickA pickB [true, true, false, false] raceInit
      = ⟨pickA, .done true, .done false⟩ ∧
    firstAvailableLBPolicy session pickA g2 ts
      = ⟨.noop, some i, ts, [.get session pickA]⟩ := by
  constructor
  · have hBA : pickA ≠ pickB := fun h => hAB h.symm
    simp [raceRun, raceInit, setSessionStep, hA, hBA]
  · have hhit : sessionHit session pickA ts = some i := by
      simp [sessionHit, hs, hA, hfind]
    simp [firstAvailableLBPolicy, hhit, getSessionOps, hs]

/-- Witness for the amended C3 at concrete picks and a concrete target set. -/
theorem C3_serialized_establishment_converges_witness :
    raceRun "d1" "d2" [true, true, false, false] raceInit
      = ⟨"d1", .done true, .done false⟩ ∧
    firstAvailableLBPolicy "s" "d1" "" [⟨"d1", 0, 1, 0⟩]
      = ⟨.noop, some 0, [⟨"d1", 0, 1, 0⟩], [.get "s" "d1"]⟩ :=
  C3_serialized_establishment_converges "d1" "d2" "s" "" [⟨"d1", 0, 1, 0⟩] 0
    (by decide) (by decide) (by decide) (by decide)

/-- Claim C4: in every capacity-aware policy, a bound session whose
destination matches a tracker returns that tracker with the no-op release and
a trace of exactly one store Get — no Reserve, no weight update, targets
untouched; a bound destination matching no tracker is deleted
(delete-if-equals with the observed value) and the call falls through to the
policy's normal selection core. -/
theorem C4_session_lookup_bypass_and_stale_delete
    (session g1 g2 : String) (idx r1 r2p : Nat) (ts : List podTracker) :
    (∀ i, sessionHit session g1 ts = some i →
      firstAvailableLBPolicy session g1 g2 ts
        = ⟨.noop, some i, ts, [.get session g1]⟩ ∧
      newRoundRobinPolicy session g1 g2 idx ts
        = (idx, ⟨.noop, some i, ts, [.get session g1]⟩) ∧
      randomChoice2Policy session g1 g2 r1 r2p ts
        = some ⟨.noop, some i, ts, [.get session g1]⟩) ∧
    (session ≠ "" → g1 ≠ "" → ts.findIdx? (fun t => g1 == t.dest) = none →
      firstAvailableLBPolicy session g1 g2 ts
        = prependOps [.get session g1, .del session g1] (faCore session g2 ts) ∧
      newRoundRobinPolicy session g1 g2 idx ts
        = ((rrCore session g2 (wrapIdx idx ts.length) ts).1,
           prependOps [.get session g1, .del session g1]
             (rrCore session g2 (wrapIdx idx ts.length) ts).2) ∧
      randomChoice2Policy session g1 g2 r1 r2p ts
        = (p2cCore session g2 r1 r2p ts).map
            (prependOps [.get session g1, .del session g1])) := by
  constructor
  · intro i hhit
    have hs : session ≠ "" := by
      intro h
      rw [h] at hhit
      simp [sessionHit] at hhit
    have hops : getSessionOps session g1 ts = [.get session g1] := by
      simp [getSessionOps, hs, hhit]
    refine ⟨?_, ?_, ?_⟩
    · simp [firstAvailableLBPolicy, hhit, hops]
    · simp [newRoundRobinPolicy, hhit, hops]
    · simp [randomChoice2Policy, hhit, hops]
  · intro hs hg1 hfind
    have hhit : sessionHit session g1 ts = none := by
      simp [sessionHit, hs, hg1, hfind]
    have hops : getSessionOps session g1 ts = [.get session g1, .del session g1] := by
      simp [getSessionOps, hs, hhit]
    refine ⟨?_, ?_, ?_⟩
    · simp [firstAvailableLBPolicy, hhit, hops]
    · simp [newRoundRobinPolicy, hhit, hops]
    · simp [randomChoice2Policy, hhit, hops]

/-- Witness for C4: a bound matching session (key "s" bound to "b") and a
stale bound session (key "s" bound to "zz") over a two-tracker target set. -/
theorem C4_session_lookup_bypass_and_stale_delete_witness :
    (firstAvailableLBPolicy "s" "b" "" [⟨"a", 0, 1, 0⟩, ⟨"b", 0, 1, 0⟩]
        = ⟨.noop, some 1, [⟨"a", 0, 1, 0⟩, ⟨"b", 0, 1, 0⟩], [.get "s" "b"]⟩ ∧
      newRoundRobinPolicy "s" "b" "" 0 [⟨"a", 0, 1, 0⟩, ⟨"b", 0, 1, 0⟩]
        = (0, ⟨.noop, some 1, [⟨"a", 0, 1, 0⟩, ⟨"b", 0, 1, 0⟩], [.get "s" "b"]⟩) ∧
      randomChoice2Policy "s" "b" "" 0 0 [⟨"a", 0, 1, 0⟩, ⟨"b", 0, 1, 0⟩]
        = some ⟨.noop, some 1, [⟨"a", 0, 1, 0⟩, ⟨"b", 0, 1, 0⟩], [.get "s" "b"]⟩) ∧
    (firstAvailableLBPolicy "s" "zz" "" [⟨"a", 0, 1, 0⟩, ⟨"b", 0, 1, 0⟩]
        = prependOps [.get "s" "zz", .del "s" "zz"]
            (faCore "s" "" [⟨"a", 0, 1, 0⟩, ⟨"b", 0, 1, 0⟩]) ∧
      newRoundRobinPolicy "s" "zz" "" 0 [⟨"a", 0, 1, 0⟩, ⟨"b", 0, 1, 0⟩]
        = ((rrCore "s" "" (wrapIdx 0 ([⟨"a", 0, 1, 0⟩, ⟨"b", 0, 1, 0⟩] :
              List podTracker).length) [⟨"a", 0, 1, 0⟩, ⟨"b", 0, 1, 0⟩]).1,
           prependOps [.get "s" "zz", .del "s" "zz"]
             (rrCore "s" "" (wrapIdx 0 ([⟨"a", 0, 1, 0⟩, ⟨"b", 0, 1, 0⟩] :
                List podTracker).length) [⟨"a", 0, 1, 0⟩, ⟨"b", 0, 1, 0⟩]).2) ∧
      randomChoice2Policy "s" "zz" "" 0 0 [⟨"a", 0, 1, 0⟩, ⟨"b", 0, 1, 0⟩]
        = (p2cCore "s" "" 0 0 [⟨"a", 0, 1, 0⟩, ⟨"b", 0, 1, 0⟩]).map
            (prependOps [.get "s" "zz", .del "s" "zz"])) :=
  ⟨(C4_session_lookup_bypass_and_stale_delete "s" "b" "" 0 0 0
      [⟨"a", 0, 1, 0⟩, ⟨"b", 0, 1, 0⟩]).1 1 (by decide),
   (C4_session_lookup_bypass_and_stale_delete "s" "zz" "" 0 0 0
      [⟨"a", 0, 1, 0⟩, ⟨"b", 0, 1, 0⟩]).2 (by decide) (by decide) (by decide)⟩

/-- Claim C5: when a session key is present, the pre-selection lookup missed,
and the establishment-time read observes a non-empty binding differing from
the candidate's destination, each capacity-aware policy returns "no target"
with the no-op release and the target set exactly as before the call — the
first-available and round-robin traces show the reservation taken and then
released, and round-robin does not advance its cursor. -/
theorem C5_establishment_race_aborts
    (session g1 g2 : String) (idx r1 r2p : Nat) (ts : List podTracker)
    (hs : session ≠ "") (hmiss : sessionHit session g1 ts = none) (hg2 : g2 ≠ "") :
    (∀ j, faFirstCap ts = some j → g2 ≠ (ts[j]?.getD dT).dest →
      firstAvailableLBPolicy session g1 g2 ts
        = ⟨.noop, none, ts,
            getSessionOps session g1 ts ++
              [.reserve (ts[j]?.getD dT).dest, .get session g2,
               .release (ts[j]?.getD dT).dest]⟩) ∧
    (∀ p, rrFind ts (wrapIdx idx ts.length) = some p → g2 ≠ (ts[p]?.getD dT).dest →
      newRoundRobinPolicy session g1 g2 idx ts
        = (wrapIdx idx ts.length,
           ⟨.noop, none, ts,
             getSessionOps session g1 ts ++
               [.reserve (ts[p]?.getD dT).dest, .get session g2,
                .release (ts[p]?.getD dT).dest]⟩)) ∧
    (∀ pi tp, p2cPick r1 r2p ts = some (pi, tp) → g2 ≠ tp.dest →
      randomChoice2Policy session g1 g2 r1 r2p ts
        = some ⟨.noop, none, ts, getSessionOps session g1 ts ++ [.get session g2]⟩) := by
  refine ⟨?_, ?_, ?_⟩
  · intro j hj hgd
    have hok : setSessionOk session g2 (ts[j]?.getD dT).dest = false := by
      simp [setSessionOk, hs, hg2, hgd]
    simp [firstAvailableLBPolicy, hmiss, faCore, hj, hok, prependOps,
      setSessionOps, hs, hg2, hgd]
  · intro p hp hgd
    have hok : setSessionOk session g2 (ts[p]?.getD dT).dest = false := by
      simp [setSessionOk, hs, hg2, hgd]
    simp [newRoundRobinPolicy, hmiss, rrCore, hp, hok, prependOps,
      setSessionOps, hs, hg2, hgd]
  · intro pi tp hpt hgd
    have hok : setSessionOk session g2 tp.dest = false := by
      simp [setSessionOk, hs, hg2, hgd]
    simp [randomChoice2Policy, hmiss, p2cCore, hpt, hok, prependOps,
      setSessionOps, hs, hg2, hgd]

/-- Witness for C5: key "s" unbound at lookup, bound to "other" at
establishment time, singleton target set with capacity. -/
theorem C5_establishment_race_aborts_witness :
    (firstAvailableLBPolicy "s" "" "other" [⟨"a", 0, 1, 0⟩]
        = ⟨.noop, none, [⟨"a", 0, 1, 0⟩],
            getSessionOps "s" "" [⟨"a", 0, 1, 0⟩] ++
              [.reserve (([⟨"a", 0, 1, 0⟩] : List podTracker)[0]?.getD dT).dest,
               .get "s" "other",
               .release (([⟨"a", 0, 1, 0⟩] : List podTracker)[0]?.getD dT).dest]⟩) ∧
    (newRoundRobinPolicy "s" "" "other" 0 [⟨"a", 0, 1, 0⟩]
        = (wrapIdx 0 ([⟨"a", 0, 1, 0⟩] : List podTracker).length,
           ⟨.noop, none, [⟨"a", 0, 1, 0⟩],
             getSessionOps "s" "" [⟨"a", 0, 1, 0⟩] ++
               [.reserve (([⟨"a", 0, 1, 0⟩] : List podTracker)[0]?.getD dT).dest,
                .get "s" "other",
                .release (([⟨"a", 0, 1, 0⟩] : List podTracker)[0]?.getD dT).dest]⟩)) ∧
    (randomChoice2Policy "s" "" "other" 0 0 [⟨"a", 0, 1, 0⟩]
        = some ⟨.noop, none, [⟨"a", 0, 1, 0⟩],
            getSessionOps "s" "" [⟨"a", 0, 1, 0⟩] ++ [.get "s" "other"]⟩) :=
  ⟨(C5_establishment_race_aborts "s" "" "other" 0 0 0 [⟨"a", 0, 1, 0⟩]
      (by decide) (by decide) (by decide)).1 0 (by decide) (by decide),
   (C5_establishment_race_aborts "s" "" "other" 0 0 0 [⟨"a", 0, 1, 0⟩]
      (by decide) (by decide) (by decide)).2.1 0 (by decide) (by decide),
   (C5_establishment_race_aborts "s" "" "other" 0 0 0 [⟨"a", 0, 1, 0⟩]
      (by decide) (by decide) (by decide)).2.2 0 ⟨"a", 0, 1, 0⟩
     (by decide) (by decide)⟩

/-- Claim C6: the round-robin policy without a session key — a cursor at or
past the target-set length behaves exactly as cursor 0 (no out-of-range
access); when no target has capacity the call returns "no target" leaving the
cursor at its wrapped value and the targets untouched; and over `n` backends
that all have capacity for the run, `n` consecutive calls pick exactly the
cyclic rotation starting at the cursor: the pick list is the rotation
formula, has no duplicates, and contains every backend. -/
theorem C6_round_robin_cyclic :
    (∀ (g1 g2 : String) (idx : Nat) (ts : List podTracker), ts.length ≤ idx →
      newRoundRobinPolicy "" g1 g2 idx ts = newRoundRobinPolicy "" g1 g2 0 ts) ∧
    (∀ (g1 g2 : String) (idx : Nat) (ts : List podTracker),
      (∀ p, p < ts.length → hasCap (ts.getD p dT) = false) →
      newRoundRobinPolicy "" g1 g2 idx ts
        = (wrapIdx idx ts.length, ⟨.noop, none, ts, []⟩)) ∧
    (∀ (ts : List podTracker) (c0 : Nat), 0 < ts.length → c0 < ts.length →
      (∀ i, i < ts.length → (ts.getD i dT).inflight + ts.length ≤ (ts.getD i dT).cap) →
      (rrRun ts.length c0 ts).1
          = (List.range ts.length).map (fun k => some ((c0 + k) % ts.length)) ∧
      ((rrRun ts.length c0 ts).1).Nodup ∧
      (∀ j, j < ts.length → some j ∈ (rrRun ts.length c0 ts).1)) := by
  refine ⟨?_, ?_, ?_⟩
  · intro g1 g2 idx ts h
    have hw2 : wrapIdx idx ts.length = 0 := by unfold wrapIdx; rw [if_pos h]
    have hw : wrapIdx 0 ts.length = 0 := by unfold wrapIdx; split <;> rfl
    simp [newRoundRobinPolicy, sessionHit, hw, hw2]
  · intro g1 g2 idx ts h
    have hf := rrFind_none_of_noCap ts (wrapIdx idx ts.length) h
    simp [newRoundRobinPolicy, sessionHit, getSessionOps, rrCore, hf, prependOps]
  · intro ts c0 h0 hc0 hcap
    have hrot := rot_aux ts.length c0 ts h0 (le_of_lt hc0) hcap
    refine ⟨hrot, ?_, ?_⟩
    · rw [hrot]
      refine List.Nodup.map_on ?_ (List.nodup_range _)
      intro x hx y hy hxy
      rw [List.mem_range] at hx hy
      have hmm : (c0 + x) % ts.length = (c0 + y) % ts.length := Option.some.inj hxy
      have h2 : x ≡ y [MOD ts.length] := Nat.ModEq.add_left_cancel' c0 hmm
      unfold Nat.ModEq at h2
      rw [Nat.mod_eq_of_lt hx, Nat.mod_eq_of_lt hy] at h2
      exact h2
    · intro j hj
      rw [hrot]
      refine List.mem_map.mpr
        ⟨(j + ts.length - c0) % ts.length, List.mem_range.mpr (Nat.mod_lt _ h0), ?_⟩
      have h1 : (c0 + (j + ts.length - c0) % ts.length) % ts.length
          = (c0 + (j + ts.length - c0)) % ts.length := Nat.add_mod_mod _ _ _
      have h2 : c0 + (j + ts.length - c0) = j + ts.length := by omega
      rw [h1, h2, Nat.add_mod_right, Nat.mod_eq_of_lt hj]

/-- Witness for C6: cursor 5 over one backend wraps like cursor 0; a full
backend yields "no target" with the cursor at its wrapped value; three calls
over three always-available backends starting at cursor 1 pick the rotation
1, 2, 0, with no duplicates and backend 0 visited. -/
theorem C6_round_robin_cyclic_witness :
    newRoundRobinPolicy "" "" "" 5 [⟨"a", 0, 1, 0⟩]
        = newRoundRobinPolicy "" "" "" 0 [⟨"a", 0, 1, 0⟩] ∧
    newRoundRobinPolicy "" "" "" 0 [⟨"a", 1, 1, 0⟩]
        = (wrapIdx 0 ([⟨"a", 1, 1, 0⟩] : List podTracker).length,
           ⟨.noop, none, [⟨"a", 1, 1, 0⟩], []⟩) ∧
    (rrRun ([⟨"a", 0, 3, 0⟩, ⟨"b", 0, 3, 0⟩, ⟨"c", 0, 3, 0⟩] :
          List podTracker).length 1 [⟨"a", 0, 3, 0⟩, ⟨"b", 0, 3, 0⟩, ⟨"c", 0, 3, 0⟩]).1
        = (List.range ([⟨"a", 0, 3, 0⟩, ⟨"b", 0, 3, 0⟩, ⟨"c", 0, 3, 0⟩] :
            List podTracker).length).map
            (fun k => some ((1 + k) % ([⟨"a", 0, 3, 0⟩, ⟨"b", 0, 3, 0⟩, ⟨"c", 0, 3, 0⟩] :
              List podTracker).length)) ∧
    some 0 ∈ (rrRun ([⟨"a", 0, 3, 0⟩, ⟨"b", 0, 3, 0⟩, ⟨"c", 0, 3, 0⟩] :
          List podTracker).length 1
          [⟨"a", 0, 3, 0⟩, ⟨"b", 0, 3, 0⟩, ⟨"c", 0, 3, 0⟩]).1 :=
  ⟨C6_round_robin_cyclic.1 "" "" 5 [⟨"a", 0, 1, 0⟩] (by decide),
   C6_round_robin_cyclic.2.1 "" "" 0 [⟨"a", 1, 1, 0⟩] (by decide),
   (C6_round_robin_cyclic.2.2 [⟨"a", 0, 3, 0⟩, ⟨"b", 0, 3, 0⟩, ⟨"c", 0, 3, 0⟩] 1
      (by decide) (by decide) (by decide)).1,
   (C6_round_robin_cyclic.2.2 [⟨"a", 0, 3, 0⟩, ⟨"b", 0, 3, 0⟩, ⟨"c", 0, 3, 0⟩] 1
      (by decide) (by decide) (by decide)).2.2 0 (by decide)⟩

/-- Claim C7: the two indices drawn by the power-of-two-choices policy are
distinct and in range for more than two targets (the second draw over `n - 1`
values is shifted past the first); exactly two targets are compared directly
as the fixed pair `(0, 1)` with no use of the random draws; and the pick is
the strictly-lower-weight tracker of the pair, the first draw on a tie. -/
theorem C7_power_of_two_choices_draws (l r1 r2p : Nat) :
    (2 < l → r1 < l → r2p < l - 1 →
      (choice2Idx l r1 r2p).1 ≠ (choice2Idx l r1 r2p).2 ∧
      (choice2Idx l r1 r2p).1 < l ∧ (choice2Idx l r1 r2p).2 < l) ∧
    (l = 2 → choice2Idx l r1 r2p = (0, 1)) ∧
    (∀ (ts : List podTracker) (t1 t2 : podTracker),
      ts.length ≠ 1 →
      ts[(choice2Idx ts.length r1 r2p).1]? = some t1 →
      ts[(choice2Idx ts.length r1 r2p).2]? = some t2 →
      (t2.weight < t1.weight →
        p2cPick r1 r2p ts = some ((choice2Idx ts.length r1 r2p).2, t2)) ∧
      (t1.weight ≤ t2.weight →
        p2cPick r1 r2p ts = some ((choice2Idx ts.length r1 r2p).1, t1))) := by
  refine ⟨?_, ?_, ?_⟩
  · intro hl hr1 hr2
    unfold choice2Idx
    simp only [if_pos hl]
    by_cases h : r1 ≤ r2p <;> simp [h] <;> omega
  · intro hl; subst hl; rfl
  · intro ts t1 t2 hlen h1 h2
    constructor
    · intro hw
      simp [p2cPick, hlen, h1, h2, hw]
    · intro hw
      simp [p2cPick, hlen, h1, h2, not_lt.mpr hw]

/-- Witness for C7: draws (2, 3) over five targets give the distinct in-range
pair (2, 4); two targets give (0, 1); over three targets with draws (1, 1)
the lower-weight tracker of the drawn pair (1, 2) is picked. -/
theorem C7_power_of_two_choices_draws_witness :
    ((choice2Idx 5 2 3).1 ≠ (choice2Idx 5 2 3).2 ∧
      (choice2Idx 5 2 3).1 < 5 ∧ (choice2Idx 5 2 3).2 < 5) ∧
    choice2Idx 2 0 0 = (0, 1) ∧
    p2cPick 1 1 [⟨"a", 0, 0, 5⟩, ⟨"b", 0, 0, 9⟩, ⟨"c", 0, 0, 2⟩]
      = some ((choice2Idx ([⟨"a", 0, 0, 5⟩, ⟨"b", 0, 0, 9⟩, ⟨"c", 0, 0, 2⟩] :
          List podTracker).length 1 1).2, ⟨"c", 0, 0, 2⟩) :=
  ⟨(C7_power_of_two_choices_draws 5 2 3).1 (by decide) (by decide) (by decide),
   (C7_power_of_two_choices_draws 2 0 0).2.1 rfl,
   ((C7_power_of_two_choices_draws 0 1 1).2.2
      [⟨"a", 0, 0, 5⟩, ⟨"b", 0, 0, 9⟩, ⟨"c", 0, 0, 2⟩] ⟨"b", 0, 0, 9⟩ ⟨"c", 0, 0, 2⟩
      (by decide) (by decide) (by decide)).1 (by decide)⟩

/-- Claim C8, counterexample: with a session header name and a session query
parameter both configured, the header absent and the query parameter set to
"v", the handler's resolver returns "" (a configured rule is terminal even
with an empty value) while the claim's first-match-wins order would return
"v" from the query rule — so the claimed precedence with fall-through on
empty values does not hold, and the claim's five-rule list also omits the
revision-annotation rules the code consults before the `K-Revision` header. -/
theorem C8_resolver_precedence_counterexample :
    (getSessionH c8Req c8Ann).1 = "" ∧ claimResolve c8Req c8Ann = "v" := by decide

/-- Claim C8, amended: the handler resolver is the first-applicable-rule
cascade in the order sticky-session header, session header annotation
(recorded back as `K-Session` when non-empty), session query annotation,
session path annotation, revision header annotation, revision query
annotation, revision path annotation, `K-Revision` header; each configured
rule is terminal with whatever value it reads (possibly empty), and only an
unparsable or out-of-range path-segment index falls through. -/
theorem C8_resolver_precedence_amended :
    (∀ (r : Request) (ann : String → String),
      (getSessionH r ann).1 = specResolve r ann) ∧
    (∀ (r : Request) (ann : String → String),
      r.header kSessionH = "" → ann aSH ≠ "" → r.header (ann aSH) ≠ "" →
      (kSessionH, r.header (ann aSH)) ∈ (getSessionH r ann).2) := by
  constructor
  · intro r ann
    unfold specResolve stickyRules
    by_cases c0 : r.header kSessionH = ""
    · by_cases c1 : ann aSH = ""
      · by_cases c2 : ann aSQ = ""
        · by_cases c3 : ann aSP = ""
          · simp only [getSessionH, addSticky, List.findSome?, id, c0, c1, c2, c3]
            simp only [ne_eq, not_true_eq_false, if_false, reduceIte]
            rw [C8_tail]
            simp [List.findSome?, pathRuleS]
          · cases hn : (ann aSP).toNat? with
            | none =>
              simp [getSessionH, addSticky, pathRuleS, List.findSome?, c0, c1, c2, c3, hn]
              rw [C8_tail]
              simp [List.findSome?, pathRuleS]
            | some n =>
              cases hv : (segs r.path)[n]? with
              | none =>
                simp [getSessionH, addSticky, pathRuleS, List.findSome?,
                  c0, c1, c2, c3, hn, hv]
                rw [C8_tail]
                simp [List.findSome?, pathRuleS]
              | some v =>
                simp [getSessionH, addSticky, pathRuleS, List.findSome?,
                  c0, c1, c2, c3, hn, hv]
        · simp [getSessionH, addSticky, List.findSome?, c0, c1, c2]
      · simp [getSessionH, addSticky, List.findSome?, c0, c1]
    · simp [getSessionH, addSticky, List.findSome?, c0]
  · intro r ann h0 h1 h2
    simp [getSessionH, addSticky, h0, h1, h2]

/-- Witness for the amended C8: the counterexample configuration for the
equivalence, and a configured session header holding "hv" that is recorded
back as `K-Session`. -/
theorem C8_resolver_precedence_amended_witness :
    (getSessionH c8Req c8Ann).1 = specResolve c8Req c8Ann ∧
    (kSessionH, (⟨fun h => if h = "X-S" then "hv" else "", fun _ => "", "/"⟩ :
        Request).header (c8Ann aSH))
      ∈ (getSessionH ⟨fun h => if h = "X-S" then "hv" else "", fun _ => "", "/"⟩
          c8Ann).2 :=
  ⟨C8_resolver_precedence_amended.1 c8Req c8Ann,
   C8_resolver_precedence_amended.2
     ⟨fun h => if h = "X-S" then "hv" else "", fun _ => "", "/"⟩ c8Ann
     (by decide) (by decide) (by decide)⟩

/-- Claim C9, counterexample: the power-of-two-choices policy performs no
capacity check.  A singleton target set whose sole backend is at its
concurrency cap (no capacity) is still selected. -/
theorem C9_p2c_ignores_capacity_counterexample :
    (randomChoice2Policy "" "" "" 0 0 [⟨"d", 1, 1, 0⟩]).map PolicyOut.chosen
      = some (some 0) ∧
    hasCap ⟨"d", 1, 1, 0⟩ = false := by decide

/-- Claim C9, amended: over a singleton target set with no session,
first-available and round-robin select the sole backend exactly when it has
capacity and return "no target" otherwise; power-of-two-choices always
selects it, with no capacity check (it only adjusts the weight). -/
theorem C9_single_target_selection_amended
    (t : podTracker) (g1 g2 : String) (idx r1 r2p : Nat) :
    (firstAvailableLBPolicy "" g1 g2 [t]).chosen
        = (if t.inflight < t.cap then some 0 else none) ∧
    (newRoundRobinPolicy "" g1 g2 idx [t]).2.chosen
        = (if t.inflight < t.cap then some 0 else none) ∧
    (randomChoice2Policy "" g1 g2 r1 r2p [t]).map PolicyOut.chosen
        = some (some 0) := by
  by_cases hc : t.inflight < t.cap <;>
    simp [firstAvailableLBPolicy, newRoundRobinPolicy, randomChoice2Policy,
      sessionHit, getSessionOps, faCore, faFirstCap, rrCore, rrFind, wrapIdx,
      p2cCore, p2cPick, setSessionOk, setSessionOps, prependOps, hasCap,
      List.findIdx?, List.find?, Nat.mod_one, hc]

/-- Claim C10: with an empty target set and no session key, first-available
and round-robin return "no target" with the no-op release, no store
operations, no tracker mutation and no out-of-range access; round-robin
leaves its cursor at 0. -/
theorem C10_empty_targets_no_target (g1 g2 : String) (idx : Nat) :
    firstAvailableLBPolicy "" g1 g2 [] = ⟨.noop, none, [], []⟩ ∧
    newRoundRobinPolicy "" g1 g2 idx [] = (0, ⟨.noop, none, [], []⟩) := by
  constructor
  · simp [firstAvailableLBPolicy, sessionHit, getSessionOps, faCore, faFirstCap,
      prependOps]
  · simp [newRoundRobinPolicy, sessionHit, getSessionOps, rrCore, rrFind, wrapIdx,
      prependOps]

end ServingLB
